import Mathlib

/-!
# raft-demo: the client router and the leader-redirect gateway

A shallow embedding of `src/client/client.go` and `src/service/service.go`.

* Go strings are Lean strings; `strings.Split` and `strings.HasPrefix` work on
  the character list.
* `map[string]int64` is a partial function `String → Option Int`; the order in
  which a `range` statement visits the keys is not fixed by Go, so every loop
  takes the visiting order as an explicit list.
* Everything the outside world decides during one call (whether a transport
  succeeds, what a body decodes to, what the store answers) is an explicit
  argument.
* A run-time panic is an explicit result.
-/

namespace RaftDemo

/-! ## Library functions used by both packages -/

/-- Worker of `stringsSplit`: `cur` holds the characters of the current part in
reverse. -/
def splitAux (sep : Char) : List Char → List Char → List (List Char)
  | [], cur => [cur.reverse]
  | c :: cs, cur =>
    if c = sep then cur.reverse :: splitAux sep cs [] else splitAux sep cs (c :: cur)

/-- Go `strings.Split(s, sep)` for a one-character separator. -/
def stringsSplit (s : String) (sep : Char) : List String :=
  (splitAux sep s.data []).map String.mk

/-- Go `strings.HasPrefix(s, p)`. -/
def stringsHasPrefix (s p : String) : Bool :=
  p.data.isPrefixOf s.data

/-- A decoded JSON object with string values (Go `map[string]string`), listed
in the order in which a `range` statement visits it; keys are distinct. -/
abbrev JsonMap := List (String × String)

/-- Go `v, ok := m[k]`. -/
def JsonMap.get? (m : JsonMap) (k : String) : Option String :=
  m.lookup k

/-- Go `m[k]`: the zero value `""` when the key is absent. -/
def JsonMap.index (m : JsonMap) (k : String) : String :=
  (m.lookup k).getD ""

/-- The parts of an `*http.Request` the handlers read. `Body` is the result of
`json.NewDecoder(req.Body).Decode(&m)` (`none` when decoding fails) and
`Level` is `req.URL.Query().Get("level")` after `TrimSpace` and `ToLower`. -/
structure Request where
  Method : String
  Path : String
  RawQuery : String
  Body : Option JsonMap
  Level : String

/-- What a handler leaves in the `http.ResponseWriter`: the status code (200
unless `WriteHeader` is called), the `Location` header set by `http.Redirect`,
and the payload written by `io.WriteString`. The explanatory text that `http.Error`
and `http.Redirect` add is not recorded. -/
structure Response where
  status : Nat
  location : Option String
  body : String
  deriving DecidableEq, Repr

/-- A handler that returns after `w.WriteHeader(code)`. -/
def writeHeader (code : Nat) : Response :=
  { status := code, location := none, body := "" }

/-- A handler that returns after `io.WriteString(w, b)`, or without writing. -/
def writeString (b : String) : Response :=
  { status := 200, location := none, body := b }

/-- The digit `strconv.AppendInt(b, n, 16)` writes for `n < 16`. -/
def hexDigit (n : Nat) : Char :=
  if n < 10 then Char.ofNat (48 + n) else Char.ofNat (87 + n)

/-- The bytes of the UTF-8 encoding of the code point `c`, which is how a Go
string stores it. -/
def utf8Bytes (c : Nat) : List Nat :=
  if c < 128 then [c]
  else if c < 2048 then [192 + c / 64, 128 + c % 64]
  else if c < 65536 then [224 + c / 4096, 128 + c / 64 % 64, 128 + c % 64]
  else [240 + c / 262144, 128 + c / 4096 % 64, 128 + c / 64 % 64, 128 + c % 64]

/-- The escapes of a list of bytes: each becomes `%` and its two lower-case
hexadecimal digits. -/
def escapeBytes : List Nat → List Char
  | [] => []
  | b :: bs => '%' :: hexDigit (b / 16) :: hexDigit (b % 16) :: escapeBytes bs

/-- What `hexEscapeNonASCII` makes of one character: a byte below
`utf8.RuneSelf` (128) is kept, every other byte is escaped. -/
def escapeChar (c : Char) : List Char :=
  if c.toNat < 128 then [c] else escapeBytes (utf8Bytes c.toNat)

/-- The loop of `hexEscapeNonASCII` over the characters of the string. -/
def escapeChars : List Char → List Char
  | [] => []
  | c :: cs => escapeChar c ++ escapeChars cs

/-- Go `hexEscapeNonASCII` of `net/http`. -/
def hexEscapeNonASCII (s : String) : String :=
  String.mk (escapeChars s.data)

/-- Go `http.Redirect(w, r, url, code)` for a `url` that carries a scheme, as
every target built by `FormRedirect` does: the url is not rewritten relative to
the request path, and the `Location` header is `hexEscapeNonASCII(url)`. -/
def httpRedirect (url : String) (code : Nat) : Response :=
  { status := code, location := some (hexEscapeNonASCII url), body := "" }

/-- The closure `getKey` of both `ServeHTTP` implementations. -/
def getKey (path : String) : String :=
  let parts := stringsSplit path '/'
  if parts.length ≠ 3 then "" else parts.getD 2 ""

/-! ## Package client -/

/-- Value of `const maxFailOnRequestOnService int64 = 5`. -/
def maxFailOnRequestOnService : Int := 5

/-- Errors returned by the router: the sentinel `ErrNoAvailableService` and
the error of `json.Marshal`. -/
inductive ClientError
  | ErrNoAvailableService
  | marshalError
  deriving DecidableEq, Repr

/-- The field `services map[string]int64`. -/
abbrev Services := String → Option Int

/-- Go `m[k] = v`. -/
def Services.set (s : Services) (k : String) (v : Int) : Services :=
  fun a => if a = k then some v else s a

/-- Go `delete(m, k)`. -/
def Services.delete (s : Services) (k : String) : Services :=
  fun a => if a = k then none else s a

/-- Go `m[k]` as a value: zero when the key is absent. -/
def Services.index (s : Services) (k : String) : Int :=
  (s k).getD 0

/-- The struct `RaftClient`, reduced to the fields the handlers use. -/
structure RaftClient where
  addr : String
  services : Services

/-- Go `NewRaftClient`. -/
def NewRaftClient (addr : String) : RaftClient :=
  { addr := addr, services := fun _ => none }

/-- Go `(*RaftClient).addService`. -/
def RaftClient.addService (r : RaftClient) (addr : String) : RaftClient :=
  { r with services := r.services.set addr 0 }

/-- Go `(*RaftClient).removeService`. -/
def RaftClient.removeService (r : RaftClient) (addr : String) : RaftClient :=
  { r with services := r.services.delete addr }

/-- The failure branch shared by `doGet` (lines 154-158), `doPost` (188-192)
and `doDelete` (216-220): the count is compared with the threshold first and
only then incremented. The increment is reached with a count of at most 5, so
it cannot overflow an `int64`. -/
def RaftClient.recordFailure (r : RaftClient) (serviceAddr : String) : RaftClient :=
  if r.services.index serviceAddr > maxFailOnRequestOnService then
    r.removeService serviceAddr
  else
    { r with services := r.services.set serviceAddr (r.services.index serviceAddr + 1) }

/-- What one `GET` to a backend yields inside `doGet`. -/
inductive GetReply
  | transportErr
  | readErr
  | unmarshalErr
  | object (m : JsonMap)
  deriving DecidableEq, Repr

/-- Whether a reply makes `doGet` return. -/
def GetReply.usable : GetReply → Bool
  | .object _ => true
  | _ => false

/-- Result of `doGet`: the two return values, the client afterwards and the
addresses a request was sent to, in order. -/
structure GetResult where
  value : String
  err : Option ClientError
  client : RaftClient
  contacted : List String

/-- Go `(*RaftClient).doGet`; `order` is the visiting order of
`range r.services` and `net a` the reply of address `a`. -/
def RaftClient.doGet (net : String → GetReply) (key : String) :
    List String → RaftClient → GetResult
  | [], r =>
    { value := "", err := some .ErrNoAvailableService, client := r, contacted := [] }
  | serviceAddr :: rest, r =>
    match net serviceAddr with
    | .transportErr =>
      let res := RaftClient.doGet net key rest (r.recordFailure serviceAddr)
      { res with contacted := serviceAddr :: res.contacted }
    | .readErr =>
      let res := RaftClient.doGet net key rest r
      { res with contacted := serviceAddr :: res.contacted }
    | .unmarshalErr =>
      let res := RaftClient.doGet net key rest r
      { res with contacted := serviceAddr :: res.contacted }
    | .object m =>
      { value := m.index key, err := none, client := r, contacted := [serviceAddr] }

/-- What one `POST` to a backend yields inside `doPost`. -/
inductive PostReply
  | transportErr
  | responded
  deriving DecidableEq, Repr

/-- Result of `doPost`. -/
structure PostResult where
  err : Option ClientError
  client : RaftClient
  contacted : List String

/-- The loop of `doPost`. -/
def RaftClient.doPostLoop (net : String → PostReply) :
    List String → RaftClient → PostResult
  | [], r => { err := some .ErrNoAvailableService, client := r, contacted := [] }
  | serviceAddr :: rest, r =>
    match net serviceAddr with
    | .transportErr =>
      let res := RaftClient.doPostLoop net rest (r.recordFailure serviceAddr)
      { res with contacted := serviceAddr :: res.contacted }
    | .responded => { err := none, client := r, contacted := [serviceAddr] }

/-- Go `(*RaftClient).doPost`; `marshal` is `json.Marshal` (`none` when it
returns an error). -/
def RaftClient.doPost (marshal : JsonMap → Option String) (net : String → PostReply)
    (m : JsonMap) (order : List String) (r : RaftClient) : PostResult :=
  match marshal m with
  | none => { err := some .marshalError, client := r, contacted := [] }
  | some _ => RaftClient.doPostLoop net order r

/-- What one round of the loop of `doDelete` meets: `url.Parse` fails, the
transport fails (`resp` is nil), or a response arrives. -/
inductive DeleteReply
  | parseErr
  | transportErr
  | responded
  deriving DecidableEq, Repr

/-- Result of `doDelete`: `panicked` is set when the run ends in a nil-pointer
dereference. The map is heap state, so the changes made before a panic stay. -/
structure DeleteResult where
  panicked : Bool
  client : RaftClient
  contacted : List String

/-- Go `(*RaftClient).doDelete`. After the failure branch there is no
`continue`: control reaches `defer resp.Body.Close()`, which evaluates
`resp.Body` with `resp == nil`. -/
def RaftClient.doDelete (net : String → DeleteReply) :
    List String → RaftClient → DeleteResult
  | [], r => { panicked := false, client := r, contacted := [] }
  | serviceAddr :: rest, r =>
    match net serviceAddr with
    | .parseErr => RaftClient.doDelete net rest r
    | .transportErr =>
      { panicked := true, client := r.recordFailure serviceAddr, contacted := [serviceAddr] }
    | .responded =>
      let res := RaftClient.doDelete net rest r
      { res with contacted := serviceAddr :: res.contacted }

/-- Go `(*RaftClient).handleServiceJoin`. -/
def RaftClient.handleServiceJoin (r : RaftClient) (req : Request) : Response × RaftClient :=
  if req.Method = "POST" then
    match req.Body with
    | none => (writeHeader 400, r)
    | some m =>
      match m.get? "serviceAddr" with
      | none => (writeHeader 400, r)
      | some addr => (writeHeader 200, { r with services := r.services.set addr 0 })
  else (writeHeader 503, r)

/-- Everything outside the client that one run of its `ServeHTTP` depends on. -/
structure World where
  order : List String
  marshal : JsonMap → Option String
  get : String → GetReply
  post : String → PostReply
  del : String → DeleteReply

/-- Go `(*RaftClient).ServeHTTP`. The response is `none` when the handler
panics before writing anything. -/
def RaftClient.ServeHTTP (w : World) (r : RaftClient) (req : Request) :
    Option Response × RaftClient :=
  if stringsHasPrefix req.Path "/key" then
    if req.Method = "GET" then
      let k := getKey req.Path
      if k = "" then (some (writeHeader 400), r)
      else
        let res := r.doGet w.get k w.order
        match res.err with
        | some _ => (some (writeHeader 400), res.client)
        | none =>
          match w.marshal [(k, res.value)] with
          | none => (some (writeHeader 500), res.client)
          | some b => (some (writeString b), res.client)
    else if req.Method = "POST" then
      match req.Body with
      | none => (some (writeHeader 400), r)
      | some m =>
        let res := r.doPost w.marshal w.post m w.order
        match res.err with
        | some _ => (some (writeHeader 500), res.client)
        | none => (some (writeString ""), res.client)
    else if req.Method = "DELETE" then
      let k := getKey req.Path
      if k = "" then (some (writeHeader 400), r)
      else
        let res := r.doDelete w.del w.order
        if res.panicked then (none, res.client) else (some (writeString ""), res.client)
    else (some (writeHeader 405), r)
  else if stringsHasPrefix req.Path "/service_join" then
    let res := r.handleServiceJoin req
    (some res.1, res.2)
  else (some (writeHeader 404), r)

/-! ## Package service -/

/-- Modelled from the spec: the enum `core.ConsistencyLevel` of the package
`core`, which is not among the sources: `Default`, `Stale`, `Consistent`. -/
inductive ConsistencyLevel
  | Default
  | Stale
  | Consistent
  deriving DecidableEq, Repr

/-- Modelled from the spec: the errors a `StoreApi` call returns, `NotLeader`
(the sentinel `core.ErrNotLeader`, compared with `==`) or any other error. -/
inductive StoreError
  | ErrNotLeader
  | other (text : String)
  deriving DecidableEq, Repr

/-- The interface `StoreApi`: each field is the answer of the collaborator to
the call of that name (`none` is a nil error). -/
structure StoreApi where
  Get : String → ConsistencyLevel → String × Option StoreError
  Set : String → String → Option StoreError
  Delete : String → Option StoreError
  Join : String → String → String → Option StoreError
  LeaderAPIAddr : String

/-- The struct `Service`, reduced to the fields the handlers use. -/
structure Service where
  addr : String
  store : StoreApi

/-- Go `level`: the error it returns is always nil. -/
def level (req : Request) : ConsistencyLevel × Option String :=
  if req.Level = "default" then (.Default, none)
  else if req.Level = "stale" then (.Stale, none)
  else if req.Level = "consistent" then (.Consistent, none)
  else (.Default, none)

/-- Go `(*Service).FormRedirect`. -/
def Service.FormRedirect (_s : Service) (r : Request) (host : String) : String :=
  let protocol := "http"
  let rq := if r.RawQuery ≠ "" then "?" ++ r.RawQuery else r.RawQuery
  protocol ++ "://" ++ host ++ r.Path ++ rq

/-- Go `http.Error(w, msg, code)`. -/
def httpError (code : Nat) : Response :=
  { status := code, location := none, body := "" }

/-- Go `(*Service).HandleJoin`. -/
def Service.HandleJoin (s : Service) (r : Request) : Response :=
  match r.Body with
  | none => writeHeader 400
  | some m =>
    match m.get? "httpAddr" with
    | none => writeHeader 400
    | some httpAddr =>
      match m.get? "raftAddr" with
      | none => writeHeader 400
      | some raftAddr =>
        match m.get? "id" with
        | none => writeHeader 400
        | some nodeID =>
          match s.store.Join nodeID httpAddr raftAddr with
          | some err =>
            if err = .ErrNotLeader then
              let leader := s.store.LeaderAPIAddr
              if leader = "" then httpError 503
              else httpRedirect (s.FormRedirect r leader) 307
            else writeHeader 500
          | none => writeString ""

/-- The loop `for k, v := range m` of the `POST` case of `handleKeyRequest`. -/
def Service.setAll (s : Service) (r : Request) : JsonMap → Response
  | [] => writeString ""
  | (k, v) :: rest =>
    match s.store.Set k v with
    | some err =>
      if err = .ErrNotLeader then
        let leader := s.store.LeaderAPIAddr
        if leader = "" then httpError 503
        else httpRedirect (s.FormRedirect r leader) 307
      else writeHeader 500
    | none => Service.setAll s r rest

/-- Go `(*Service).handleKeyRequest`; `marshal` is `json.Marshal`. -/
def Service.handleKeyRequest (marshal : JsonMap → Option String) (s : Service)
    (r : Request) : Response :=
  if r.Method = "GET" then
    let k := getKey r.Path
    if k = "" then writeHeader 400
    else
      match level r with
      | (_, some _) => writeHeader 400
      | (lvl, none) =>
        match s.store.Get k lvl with
        | (_, some err) =>
          if err = .ErrNotLeader then
            let leaderHttpAddr := s.store.LeaderAPIAddr
            if leaderHttpAddr = "" then httpError 503
            else httpRedirect (s.FormRedirect r leaderHttpAddr) 307
          else writeHeader 500
        | (v, none) =>
          match marshal [(k, v)] with
          | none => writeHeader 500
          | some b => writeString b
  else if r.Method = "POST" then
    match r.Body with
    | none => writeHeader 400
    | some m => s.setAll r m
  else if r.Method = "DELETE" then
    let k := getKey r.Path
    if k = "" then writeHeader 400
    else
      match s.store.Delete k with
      | some err =>
        if err = .ErrNotLeader then
          let leader := s.store.LeaderAPIAddr
          if leader = "" then httpError 503
          else httpRedirect (s.FormRedirect r leader) 307
        else writeHeader 500
      | none => writeString ""
  else writeHeader 405

/-- Go `(*Service).ServeHTTP`. -/
def Service.ServeHTTP (marshal : JsonMap → Option String) (s : Service)
    (r : Request) : Response :=
  if stringsHasPrefix r.Path "/key" then s.handleKeyRequest marshal r
  else if r.Path = "/join" then s.HandleJoin r
  else writeHeader 404

/-! ## Specification-side definitions -/

/-- The three-way rule of the spec for a store error `e`: 503 exactly for
`NotLeader` without a known leader, 307 with the `Location` header `target`
exactly for `NotLeader` with a leader, 500 without redirect exactly for any
other error. -/
def ThreeWayRule (resp : Response) (target : String) (e : StoreError) (leader : String) :
    Prop :=
  (resp.status = 503 ↔ (e = .ErrNotLeader ∧ leader = "")) ∧
  ((resp.status = 307 ∧ resp.location = some target) ↔ (e = .ErrNotLeader ∧ leader ≠ "")) ∧
  ((resp.status = 500 ∧ resp.location = none) ↔ e ≠ .ErrNotLeader)

/-- The list `order` is a visiting order of `range s`: every key once. -/
def RangeOrder (s : Services) (order : List String) : Prop :=
  order.Nodup ∧ ∀ a, a ∈ order ↔ (s a).isSome

/-- Every stored count lies between 0 and 6. -/
def CountsBounded (r : RaftClient) : Prop :=
  ∀ a c, r.services a = some c → 0 ≤ c ∧ c ≤ maxFailOnRequestOnService + 1

/-- The client states reachable from `NewRaftClient` through served requests
and direct calls of the registry and router methods, each loop visiting the
keys of the map in some order. -/
inductive Reachable : RaftClient → Prop
  | init (addr : String) : Reachable (NewRaftClient addr)
  | serve (w : World) (r : RaftClient) (req : Request) :
      Reachable r → RangeOrder r.services w.order → Reachable (r.ServeHTTP w req).2
  | addService (r : RaftClient) (addr : String) : Reachable r → Reachable (r.addService addr)
  | removeService (r : RaftClient) (addr : String) :
      Reachable r → Reachable (r.removeService addr)
  | doGet (net : String → GetReply) (key : String) (order : List String) (r : RaftClient) :
      Reachable r → RangeOrder r.services order → Reachable (r.doGet net key order).client
  | doPost (marshal : JsonMap → Option String) (net : String → PostReply) (m : JsonMap)
      (order : List String) (r : RaftClient) :
      Reachable r → RangeOrder r.services order →
      Reachable (r.doPost marshal net m order).client
  | doDelete (net : String → DeleteReply) (order : List String) (r : RaftClient) :
      Reachable r → RangeOrder r.services order → Reachable (r.doDelete net order).client

/-! ## Concrete registries, backends and requests -/

/-- The registry holding exactly `"n1"` with failure count 0. -/
def oneNode : RaftClient :=
  (NewRaftClient ":50000").addService "n1"

/-- A world in which the loops visit `"n1"` only and no backend is reachable. -/
def unreachableWorld : World :=
  { order := ["n1"], marshal := fun _ => some "", get := fun _ => .transportErr,
    post := fun _ => .transportErr, del := fun _ => .transportErr }

/-- The request `DELETE /key/k`. -/
def deleteK : Request :=
  { Method := "DELETE", Path := "/key/k", RawQuery := "", Body := none, Level := "" }

/-- The registry holding `"n1"` and `"n2"`, both with failure count 0. -/
def twoNodes : RaftClient :=
  ((NewRaftClient ":50000").addService "n1").addService "n2"

/-- Replies for C3: `"n1"` is unreachable and every other address answers
with the object that maps `"x"` to `"v"`. -/
def n1Down (a : String) : GetReply :=
  if a = "n1" then .transportErr else .object [("x", "v")]

/-- A follower whose store rejects every call with `ErrNotLeader` and knows
the leader at `"leader:51000"`. -/
def follower : Service :=
  { addr := "localhost:51001",
    store :=
      { Get := fun _ _ => ("", some .ErrNotLeader),
        Set := fun _ _ => some .ErrNotLeader,
        Delete := fun _ => some .ErrNotLeader,
        Join := fun _ _ _ => some .ErrNotLeader,
        LeaderAPIAddr := "leader:51000" } }

/-- A `json.Marshal` that always succeeds with an empty text; the handlers on
the error paths never call it. -/
def marshalStub : JsonMap → Option String :=
  fun _ => some ""

/-- The request `GET /key/x?level=consistent`. -/
def sampleGet : Request :=
  { Method := "GET", Path := "/key/x", RawQuery := "level=consistent", Body := none,
    Level := "consistent" }

/-- The request `GET /key/%C3%A9`, whose decoded path is `/key/é`. -/
def nonAsciiGet : Request :=
  { Method := "GET", Path := "/key/é", RawQuery := "", Body := none, Level := "" }

/-- The request `POST /key` with the pair `x`, `v`. -/
def samplePost : Request :=
  { Method := "POST", Path := "/key", RawQuery := "", Body := some [("x", "v")], Level := "" }

/-- The request `DELETE /key/x`. -/
def sampleDelete : Request :=
  { Method := "DELETE", Path := "/key/x", RawQuery := "", Body := none, Level := "" }

/-- The request `POST /join` of the node `node1`. -/
def sampleJoin : Request :=
  { Method := "POST", Path := "/join", RawQuery := "",
    Body := some [("httpAddr", "h:1"), ("raftAddr", "r:1"), ("id", "node1")], Level := "" }

/-- The join request of a backend at `"n1"`. -/
def joinN1 : Request :=
  { Method := "POST", Path := "/service_join", RawQuery := "",
    Body := some [("serviceAddr", "n1")], Level := "" }

/-- Replies for C9: `"n1"` is unreachable and every other address responds. -/
def n1DownPost (a : String) : PostReply :=
  if a = "n1" then .transportErr else .responded

/-- The registry holding `"n1"`, `"n2"` and `"n3"`, all with count 0. -/
def threeNodes : RaftClient :=
  twoNodes.addService "n3"

/-- One run of `doGet` against the single unreachable address `A`. -/
def failOnce (A : String) (r : RaftClient) : RaftClient :=
  (r.doGet (fun _ => .transportErr) "k" [A]).client

/-! ## Basic facts about the registry -/

theorem Services.set_same (s : Services) (k : String) (v : Int) : s.set k v k = some v := by
  simp [Services.set]

theorem Services.set_other (s : Services) (k a : String) (v : Int) (h : a ≠ k) :
    s.set k v a = s a := by
  simp [Services.set, h]

theorem Services.delete_same (s : Services) (k : String) : s.delete k k = none := by
  simp [Services.delete]

theorem Services.delete_other (s : Services) (k a : String) (h : a ≠ k) :
    s.delete k a = s a := by
  simp [Services.delete, h]

/-- The failure branch at the address itself. -/
theorem RaftClient.recordFailure_same (r : RaftClient) (a : String) :
    (r.recordFailure a).services a =
      if r.services.index a > 5 then none else some (r.services.index a + 1) := by
  unfold RaftClient.recordFailure
  by_cases h : r.services.index a > 5
  · simp [h, maxFailOnRequestOnService, RaftClient.removeService, Services.delete]
  · simp [h, maxFailOnRequestOnService, Services.set]

/-- The failure branch leaves every other address alone. -/
theorem RaftClient.recordFailure_other (r : RaftClient) (a b : String) (h : b ≠ a) :
    (r.recordFailure a).services b = r.services b := by
  unfold RaftClient.recordFailure
  split
  · simp [RaftClient.removeService, Services.delete, h]
  · simp [Services.set, h]

/-- A count `c` between 0 and 5 becomes `c + 1`. -/
theorem RaftClient.recordFailure_count (r : RaftClient) (a : String) (c : Int)
    (h : r.services a = some c) (hc : c ≤ 5) :
    (r.recordFailure a).services a = some (c + 1) := by
  have hi : r.services.index a = c := by simp [Services.index, h]
  rw [RaftClient.recordFailure_same, hi]
  simp [not_lt.mpr hc]

/-- A count above 5 makes the failure branch delete the entry. -/
theorem RaftClient.recordFailure_evicts (r : RaftClient) (a : String) (c : Int)
    (h : r.services a = some c) (hc : 5 < c) :
    (r.recordFailure a).services a = none := by
  have hi : r.services.index a = c := by simp [Services.index, h]
  rw [RaftClient.recordFailure_same, hi]
  simp [hc]

/-- Failures recorded on a list of addresses do not touch an address outside
the list. -/
theorem RaftClient.foldl_recordFailure_other (pre : List String) (r : RaftClient)
    (b : String) (h : b ∉ pre) :
    (pre.foldl RaftClient.recordFailure r).services b = r.services b := by
  induction pre generalizing r with
  | nil => rfl
  | cons a rest ih =>
    simp only [List.mem_cons, not_or] at h
    rw [List.foldl_cons, ih _ h.2, RaftClient.recordFailure_other r a b h.1]

/-- Failures recorded on a duplicate-free list: each listed address gets
exactly the effect of one failure branch. -/
theorem RaftClient.foldl_recordFailure_mem (pre : List String) (r : RaftClient)
    (b : String) (hnd : pre.Nodup) (h : b ∈ pre) :
    (pre.foldl RaftClient.recordFailure r).services b = (r.recordFailure b).services b := by
  induction pre generalizing r with
  | nil => cases h
  | cons a rest ih =>
    rw [List.nodup_cons] at hnd
    rw [List.foldl_cons]
    rcases List.mem_cons.mp h with rfl | hb
    · exact RaftClient.foldl_recordFailure_other rest _ b hnd.1
    · have hne : b ≠ a := fun e => hnd.1 (e ▸ hb)
      rw [ih _ hnd.2 hb, RaftClient.recordFailure_same, RaftClient.recordFailure_same]
      have : (r.recordFailure a).services.index b = r.services.index b := by
        simp [Services.index, RaftClient.recordFailure_other r a b hne]
      rw [this]

/-! ## C1: eviction threshold -/

/-- C1 (the code at the failing input): for an address registered with
failure count 0, six consecutive runs of the failure branch leave the address
registered with count 6; only the seventh run deletes it. -/
theorem RaftClient.six_failures_keep_service (r : RaftClient) (A : String)
    (h : r.services A = some 0) :
    ((fun c => RaftClient.recordFailure c A)^[6] r).services A = some 6 ∧
    ((fun c => RaftClient.recordFailure c A)^[7] r).services A = none := by
  have h1 := RaftClient.recordFailure_count r A 0 h (by decide)
  have h2 := RaftClient.recordFailure_count _ A _ h1 (by decide)
  have h3 := RaftClient.recordFailure_count _ A _ h2 (by decide)
  have h4 := RaftClient.recordFailure_count _ A _ h3 (by decide)
  have h5 := RaftClient.recordFailure_count _ A _ h4 (by decide)
  have h6 := RaftClient.recordFailure_count _ A _ h5 (by decide)
  have h7 := RaftClient.recordFailure_evicts _ A _ h6 (by decide)
  exact ⟨h6, h7⟩

/-- Witness of C1 on the registry holding only `"n1"`. -/
theorem RaftClient.six_failures_keep_service_witness :
    oneNode.services "n1" = some 0 ∧
    ((fun c => RaftClient.recordFailure c "n1")^[6] oneNode).services "n1" = some 6 ∧
    ((fun c => RaftClient.recordFailure c "n1")^[7] oneNode).services "n1" = none :=
  ⟨by decide, RaftClient.six_failures_keep_service oneNode "n1" (by decide)⟩

/-- Six runs of `doGet` against the unreachable `"n1"`: the address is still a
key of the map, with count 6. -/
theorem RaftClient.doGet_six_runs :
    ((fun c => (RaftClient.doGet (fun _ => .transportErr) "k" ["n1"] c).client)^[6]
      oneNode).services "n1" = some 6 := by
  decide

/-! ## C2: `doDelete` when the transport fails -/

/-- The loop of `doDelete` panics at the first address whose transport fails,
after the rounds before it went through. -/
theorem RaftClient.doDelete_panics_at (net : String → DeleteReply) (pre : List String)
    (a : String) (post : List String) (r : RaftClient)
    (hpre : ∀ b ∈ pre, net b ≠ .transportErr) (ha : net a = .transportErr) :
    (r.doDelete net (pre ++ a :: post)).panicked = true ∧
    (r.doDelete net (pre ++ a :: post)).client = r.recordFailure a := by
  induction pre with
  | nil => simp [RaftClient.doDelete, ha]
  | cons b rest ih =>
    have hb : net b ≠ .transportErr := hpre b (List.mem_cons_self _ _)
    have ih2 := ih (fun c hc => hpre c (List.mem_cons_of_mem _ hc))
    rw [List.cons_append]
    unfold RaftClient.doDelete
    cases hnb : net b with
    | parseErr => simpa using ih2
    | transportErr => exact absurd hnb hb
    | responded => simpa using ih2

/-- C2 (the code at the failing input): when the registry is not empty and
every address fails at the transport level, `doDelete` ends in a nil-pointer
dereference at the first address it visits, after recording that failure, and
the `DELETE /key/k` handler writes no response. -/
theorem RaftClient.doDelete_unreachable_panics (w : World) (r : RaftClient) (req : Request)
    (a : String) (rest : List String)
    (hm : req.Method = "DELETE") (hp : stringsHasPrefix req.Path "/key" = true)
    (hk : getKey req.Path ≠ "") (ho : w.order = a :: rest)
    (hall : ∀ b ∈ w.order, w.del b = .transportErr) :
    (r.doDelete w.del w.order).panicked = true ∧
    (r.doDelete w.del w.order).client = r.recordFailure a ∧
    (r.doDelete w.del w.order).contacted = [a] ∧
    (r.ServeHTTP w req).1 = none := by
  have ha : w.del a = .transportErr := hall a (by simp [ho])
  have hd : r.doDelete w.del w.order =
      { panicked := true, client := r.recordFailure a, contacted := [a] } := by
    rw [ho]; simp [RaftClient.doDelete, ha]
  refine ⟨by rw [hd], by rw [hd], by rw [hd], ?_⟩
  unfold RaftClient.ServeHTTP
  simp [hp, hm, hk, hd]

/-- Witness of C2: the registry holding only the unreachable `"n1"`. -/
theorem RaftClient.doDelete_unreachable_panics_witness :
    (oneNode.doDelete unreachableWorld.del unreachableWorld.order).panicked = true ∧
    (oneNode.doDelete unreachableWorld.del unreachableWorld.order).client
      = oneNode.recordFailure "n1" ∧
    (oneNode.doDelete unreachableWorld.del unreachableWorld.order).contacted = ["n1"] ∧
    (oneNode.ServeHTTP unreachableWorld deleteK).1 = none :=
  RaftClient.doDelete_unreachable_panics unreachableWorld oneNode deleteK "n1" []
    (by decide) (by decide) (by decide) rfl (fun _ _ => rfl)

/-! ## C3: one unreachable and one answering backend -/

/-- A range order of a map with the two keys `N1` and `N2` is one of the two
lists of both. -/
theorem RangeOrder.two (s : Services) (N1 N2 : String) (order : List String)
    (h1 : (s N1).isSome) (h2 : (s N2).isSome) (hne : N1 ≠ N2)
    (honly : ∀ a, (s a).isSome → a = N1 ∨ a = N2) (ho : RangeOrder s order) :
    order = [N1, N2] ∨ order = [N2, N1] := by
  obtain ⟨hnd, hmem⟩ := ho
  have m1 : N1 ∈ order := (hmem N1).mpr h1
  have m2 : N2 ∈ order := (hmem N2).mpr h2
  have hsub : ∀ a ∈ order, a = N1 ∨ a = N2 := fun a ha => honly a ((hmem a).mp ha)
  match order, hnd, m1, m2, hsub with
  | [], _, m1, _, _ => cases m1
  | [x], _, m1, m2, _ =>
    simp only [List.mem_singleton] at m1 m2
    exact absurd (m1.trans m2.symm) hne
  | [x, y], hnd, m1, m2, hsub =>
    simp only [List.mem_cons, List.mem_singleton, List.not_mem_nil, or_false] at m1 m2
    simp only [List.nodup_cons, List.mem_singleton, List.not_mem_nil, not_false_eq_true,
      List.nodup_nil, and_true] at hnd
    rcases m1 with rfl | rfl <;> rcases m2 with rfl | rfl
    · exact absurd rfl hne
    · exact Or.inl rfl
    · exact Or.inr rfl
    · exact absurd rfl hne
  | x :: y :: z :: t, hnd, _, _, hsub =>
    exfalso
    have hx := hsub x (by simp)
    have hy := hsub y (by simp)
    have hz := hsub z (by simp)
    simp only [List.nodup_cons, List.mem_cons, not_or] at hnd
    obtain ⟨⟨hxy, hxz, _⟩, ⟨hyz, _⟩, _⟩ := hnd
    rcases hx with rfl | rfl <;> rcases hy with rfl | rfl <;> rcases hz with rfl | rfl <;>
      simp_all

theorem twoNodes_rangeOrder : RangeOrder twoNodes.services ["n2", "n1"] := by
  refine ⟨by decide, fun a => ?_⟩
  by_cases e1 : a = "n1"
  · subst e1; decide
  · by_cases e2 : a = "n2"
    · subst e2; decide
    · simp [twoNodes, NewRaftClient, RaftClient.addService, Services.set, e1, e2]

/-- C3 (counterexample): when the loop visits the answering `"n2"` first,
`doGet` returns at once and the failure count of `"n1"` stays 0, not 1. -/
theorem RaftClient.doGet_two_nodes_counterexample :
    RangeOrder twoNodes.services ["n2", "n1"] ∧
    (twoNodes.doGet n1Down "x" ["n2", "n1"]).value = "v" ∧
    (twoNodes.doGet n1Down "x" ["n2", "n1"]).err = none ∧
    (twoNodes.doGet n1Down "x" ["n2", "n1"]).client.services "n1" = some 0 ∧
    (twoNodes.doGet n1Down "x" ["n2", "n1"]).client.services "n1" ≠ some 1 :=
  ⟨twoNodes_rangeOrder, by decide, by decide, by decide, by decide⟩

/-- C3 (amended): with exactly `N1` and `N2` registered at count 0, `N1`
unreachable and `N2` answering with the object that maps `"x"` to `"v"`,
`doGet "x"` returns `("v", nil)` in every visiting order and leaves the count
of `N2` at 0; the count of `N1` is 1 when `N1` is visited first and 0 when
`N2` is visited first, since `N1` is then not contacted. -/
theorem RaftClient.doGet_two_nodes (r : RaftClient) (N1 N2 : String)
    (net : String → GetReply) (order : List String)
    (h1 : r.services N1 = some 0) (h2 : r.services N2 = some 0) (hne : N1 ≠ N2)
    (honly : ∀ a, (r.services a).isSome → a = N1 ∨ a = N2)
    (hn1 : net N1 = .transportErr) (hn2 : net N2 = .object [("x", "v")])
    (ho : RangeOrder r.services order) :
    (r.doGet net "x" order).value = "v" ∧
    (r.doGet net "x" order).err = none ∧
    (r.doGet net "x" order).client.services N2 = some 0 ∧
    (r.doGet net "x" order).client.services N1 = some (if order.head? = some N1 then 1 else 0) ∧
    (r.doGet net "x" order).contacted = (if order.head? = some N1 then [N1, N2] else [N2]) := by
  have hidx : JsonMap.index [("x", "v")] "x" = "v" := by decide
  have hc := RaftClient.recordFailure_count r N1 0 h1 (by decide)
  have hn := RaftClient.recordFailure_other r N1 N2 (Ne.symm hne)
  rcases RangeOrder.two r.services N1 N2 order (by simp [h1]) (by simp [h2]) hne honly ho
    with rfl | rfl
  · simp [RaftClient.doGet, hn1, hn2, hidx, hc, hn, h2]
  · simp [RaftClient.doGet, hn2, hidx, h1, h2, Ne.symm hne]

/-- Witness of C3 (amended), visiting the unreachable `"n1"` first. -/
theorem RaftClient.doGet_two_nodes_witness :
    (twoNodes.doGet n1Down "x" ["n1", "n2"]).value = "v" ∧
    (twoNodes.doGet n1Down "x" ["n1", "n2"]).err = none ∧
    (twoNodes.doGet n1Down "x" ["n1", "n2"]).client.services "n2" = some 0 ∧
    (twoNodes.doGet n1Down "x" ["n1", "n2"]).client.services "n1"
      = some (if ["n1", "n2"].head? = some "n1" then 1 else 0) ∧
    (twoNodes.doGet n1Down "x" ["n1", "n2"]).contacted
      = (if ["n1", "n2"].head? = some "n1" then ["n1", "n2"] else ["n2"]) :=
  RaftClient.doGet_two_nodes twoNodes "n1" "n2" n1Down ["n1", "n2"] (by decide) (by decide)
    (by decide)
    (fun a => by
      by_cases e1 : a = "n1"
      · exact fun _ => Or.inl e1
      · by_cases e2 : a = "n2"
        · exact fun _ => Or.inr e2
        · simp [twoNodes, NewRaftClient, RaftClient.addService, Services.set, e1, e2])
    (by decide) (by decide)
    ⟨by decide, fun a => by
      by_cases e1 : a = "n1"
      · subst e1; decide
      · by_cases e2 : a = "n2"
        · subst e2; decide
        · simp [twoNodes, NewRaftClient, RaftClient.addService, Services.set, e1, e2]⟩

/-! ## C4: the redirect target -/

/-- C4: `FormRedirect r h` is `"http://" ++ h ++ r.Path ++ q`, where `q` is
empty when the raw query is empty and `"?" ++ r.RawQuery` otherwise. -/
theorem Service.FormRedirect_eq (s : Service) (r : Request) (h : String) :
    s.FormRedirect r h =
      "http://" ++ h ++ r.Path ++ (if r.RawQuery = "" then "" else "?" ++ r.RawQuery) := by
  have e : ("http" : String) ++ "://" = "http://" := by decide
  unfold Service.FormRedirect
  by_cases hq : r.RawQuery = ""
  · simp [hq, ← e]
  · simp [hq, ← e]

/-! ## C5: store errors in the leader-redirect gateway -/

/-- The escape leaves a list of ASCII characters as it is. -/
theorem escapeChars_ascii (cs : List Char) (h : ∀ c ∈ cs, c.toNat < 128) :
    escapeChars cs = cs := by
  induction cs with
  | nil => rfl
  | cons c rest ih =>
    have hc : c.toNat < 128 := h c (List.mem_cons_self _ _)
    have hr := ih (fun d hd => h d (List.mem_cons_of_mem _ hd))
    simp [escapeChars, escapeChar, hc, hr]

/-- The escape leaves an ASCII string as it is. -/
theorem hexEscapeNonASCII_ascii (s : String) (h : ∀ c ∈ s.data, c.toNat < 128) :
    hexEscapeNonASCII s = s := by
  unfold hexEscapeNonASCII
  rw [escapeChars_ascii s.data h]

/-- C5 (counterexample): a follower that knows the leader answers the
well-formed `GET /key/%C3%A9`, whose `Get` fails with `ErrNotLeader`, with 307
and the `Location` `http://leader:51000/key/%c3%a9`, which is not
`FormRedirect r leader`. -/
theorem Service.redirect_location_counterexample :
    stringsHasPrefix nonAsciiGet.Path "/key" = true ∧
    getKey nonAsciiGet.Path = "é" ∧
    (follower.store.Get (getKey nonAsciiGet.Path) (level nonAsciiGet).1).2
      = some .ErrNotLeader ∧
    follower.store.LeaderAPIAddr = "leader:51000" ∧
    follower.FormRedirect nonAsciiGet "leader:51000" = "http://leader:51000/key/é" ∧
    (follower.ServeHTTP marshalStub nonAsciiGet).status = 307 ∧
    (follower.ServeHTTP marshalStub nonAsciiGet).location
      = some "http://leader:51000/key/%c3%a9" ∧
    (follower.ServeHTTP marshalStub nonAsciiGet).location
      ≠ some (follower.FormRedirect nonAsciiGet "leader:51000") := by
  decide

/-- The response built by each of the four error branches obeys the rule. -/
theorem threeWayRule_branch (s : Service) (r : Request) (e : StoreError) :
    ThreeWayRule
      (if e = .ErrNotLeader then
        (if s.store.LeaderAPIAddr = "" then httpError 503
         else httpRedirect (s.FormRedirect r s.store.LeaderAPIAddr) 307)
       else writeHeader 500)
      (hexEscapeNonASCII (s.FormRedirect r s.store.LeaderAPIAddr)) e s.store.LeaderAPIAddr := by
  unfold ThreeWayRule
  by_cases he : e = .ErrNotLeader
  · by_cases hl : s.store.LeaderAPIAddr = ""
    · simp [he, hl, httpError]
    · simp [he, hl, httpRedirect]
  · simp [he, writeHeader]

/-- The `POST` loop answers with the error branch of the first failing `Set`. -/
theorem Service.setAll_first_error (s : Service) (r : Request) (pre : JsonMap)
    (k v : String) (post : JsonMap) (e : StoreError)
    (hpre : ∀ p ∈ pre, s.store.Set p.1 p.2 = none) (hk : s.store.Set k v = some e) :
    s.setAll r (pre ++ (k, v) :: post) =
      (if e = .ErrNotLeader then
        (if s.store.LeaderAPIAddr = "" then httpError 503
         else httpRedirect (s.FormRedirect r s.store.LeaderAPIAddr) 307)
       else writeHeader 500) := by
  induction pre with
  | nil => simp [Service.setAll, hk]
  | cons p rest ih =>
    obtain ⟨pk, pv⟩ := p
    have hp : s.store.Set pk pv = none := hpre (pk, pv) (List.mem_cons_self _ _)
    rw [List.cons_append, Service.setAll]
    simp only [hp]
    exact ih (fun q hq => hpre q (List.mem_cons_of_mem _ hq))

/-- C5 (amended): for a well-formed `GET /key/k`, `POST /key`, `DELETE /key/k`
or `POST /join` whose `StoreApi` call returns the error `e`, the response is
503 exactly when `e` is `ErrNotLeader` and no leader is known, 307 with
`Location` equal to `hexEscapeNonASCII (FormRedirect r leader)` exactly when
`e` is `ErrNotLeader` and a leader is known, and 500 without redirect exactly
when `e` is another error; for `POST` the call is the first `Set` that fails.
The escaped target is `FormRedirect r leader` itself when that string is
ASCII. -/
theorem Service.store_error_three_way (marshal : JsonMap → Option String) (s : Service)
    (r : Request) (e : StoreError) :
    (r.Method = "GET" → stringsHasPrefix r.Path "/key" = true → getKey r.Path ≠ "" →
      (s.store.Get (getKey r.Path) (level r).1).2 = some e →
      ThreeWayRule (s.ServeHTTP marshal r)
        (hexEscapeNonASCII (s.FormRedirect r s.store.LeaderAPIAddr)) e
        s.store.LeaderAPIAddr) ∧
    (∀ (pre : JsonMap) (k v : String) (post : JsonMap),
      r.Method = "POST" → stringsHasPrefix r.Path "/key" = true →
      r.Body = some (pre ++ (k, v) :: post) →
      (∀ p ∈ pre, s.store.Set p.1 p.2 = none) → s.store.Set k v = some e →
      ThreeWayRule (s.ServeHTTP marshal r)
        (hexEscapeNonASCII (s.FormRedirect r s.store.LeaderAPIAddr)) e
        s.store.LeaderAPIAddr) ∧
    (r.Method = "DELETE" → stringsHasPrefix r.Path "/key" = true → getKey r.Path ≠ "" →
      s.store.Delete (getKey r.Path) = some e →
      ThreeWayRule (s.ServeHTTP marshal r)
        (hexEscapeNonASCII (s.FormRedirect r s.store.LeaderAPIAddr)) e
        s.store.LeaderAPIAddr) ∧
    (∀ (m : JsonMap) (httpAddr raftAddr nodeID : String),
      r.Path = "/join" → r.Body = some m →
      m.get? "httpAddr" = some httpAddr → m.get? "raftAddr" = some raftAddr →
      m.get? "id" = some nodeID → s.store.Join nodeID httpAddr raftAddr = some e →
      ThreeWayRule (s.ServeHTTP marshal r)
        (hexEscapeNonASCII (s.FormRedirect r s.store.LeaderAPIAddr)) e
        s.store.LeaderAPIAddr) ∧
    ((∀ c ∈ (s.FormRedirect r s.store.LeaderAPIAddr).data, c.toNat < 128) →
      hexEscapeNonASCII (s.FormRedirect r s.store.LeaderAPIAddr)
        = s.FormRedirect r s.store.LeaderAPIAddr) := by
  refine ⟨?_, ?_, ?_, ?_, hexEscapeNonASCII_ascii _⟩
  · intro hm hp hk hg
    have hl : level r = ((level r).1, none) := by
      unfold level; split_ifs <;> rfl
    have hget : s.store.Get (getKey r.Path) (level r).1
        = ((s.store.Get (getKey r.Path) (level r).1).1, some e) := by
      rw [← hg]
    have h := threeWayRule_branch s r e
    unfold Service.ServeHTTP Service.handleKeyRequest
    simp only [hp, hm, if_true, hk, if_false]
    rw [hl]
    simp only []
    rw [hget]
    exact h
  · intro pre k v post hm hp hb hpre hk
    have h := threeWayRule_branch s r e
    unfold Service.ServeHTTP Service.handleKeyRequest
    have e1 : ("POST" : String) ≠ "GET" := by decide
    simp only [hp, hm, if_true, e1, if_false, hb]
    rw [Service.setAll_first_error s r pre k v post e hpre hk]
    exact h
  · intro hm hp hk hd
    have h := threeWayRule_branch s r e
    unfold Service.ServeHTTP Service.handleKeyRequest
    have e1 : ("DELETE" : String) ≠ "GET" := by decide
    have e2 : ("DELETE" : String) ≠ "POST" := by decide
    simp only [hp, hm, if_true, e1, e2, if_false, hk, hd]
    exact h
  · intro m httpAddr raftAddr nodeID hpath hb h1 h2 h3 hj
    have h := threeWayRule_branch s r e
    have e1 : stringsHasPrefix "/join" "/key" = false := by decide
    unfold Service.ServeHTTP Service.HandleJoin
    simp only [hpath, e1, if_true, hb, h1, h2, h3, hj]
    simpa using h

/-- Witness of C5 (amended): the four operations on a follower that knows the
leader. -/
theorem Service.store_error_three_way_witness :
    ThreeWayRule (follower.ServeHTTP marshalStub sampleGet)
      (hexEscapeNonASCII (follower.FormRedirect sampleGet "leader:51000"))
      .ErrNotLeader "leader:51000" ∧
    ThreeWayRule (follower.ServeHTTP marshalStub samplePost)
      (hexEscapeNonASCII (follower.FormRedirect samplePost "leader:51000"))
      .ErrNotLeader "leader:51000" ∧
    ThreeWayRule (follower.ServeHTTP marshalStub sampleDelete)
      (hexEscapeNonASCII (follower.FormRedirect sampleDelete "leader:51000"))
      .ErrNotLeader "leader:51000" ∧
    ThreeWayRule (follower.ServeHTTP marshalStub sampleJoin)
      (hexEscapeNonASCII (follower.FormRedirect sampleJoin "leader:51000"))
      .ErrNotLeader "leader:51000" ∧
    hexEscapeNonASCII (follower.FormRedirect sampleGet "leader:51000")
      = follower.FormRedirect sampleGet "leader:51000" :=
  ⟨(Service.store_error_three_way marshalStub follower sampleGet .ErrNotLeader).1
      (by decide) (by decide) (by decide) (by decide),
   (Service.store_error_three_way marshalStub follower samplePost .ErrNotLeader).2.1
      [] "x" "v" [] (by decide) (by decide) (by decide) (by simp) (by decide),
   (Service.store_error_three_way marshalStub follower sampleDelete .ErrNotLeader).2.2.1
      (by decide) (by decide) (by decide) (by decide),
   (Service.store_error_three_way marshalStub follower sampleJoin .ErrNotLeader).2.2.2.1
      [("httpAddr", "h:1"), ("raftAddr", "r:1"), ("id", "node1")] "h:1" "r:1" "node1"
      (by decide) (by decide) (by decide) (by decide) (by decide) (by decide),
   (Service.store_error_three_way marshalStub follower sampleGet .ErrNotLeader).2.2.2.2
      (by decide)⟩

/-- The redirect a follower answers to `GET /key/x?level=consistent`. -/
theorem Service.follower_get_redirect :
    follower.ServeHTTP marshalStub sampleGet =
      httpRedirect "http://leader:51000/key/x?level=consistent" 307 := by
  decide

/-! ## C7: when `doGet` fails -/

/-- The error of `doGet` is nil or `ErrNoAvailableService`; it is the latter
exactly when no visited address gives a usable reply. -/
theorem RaftClient.doGet_err_iff (net : String → GetReply) (key : String)
    (order : List String) (r : RaftClient) :
    ((r.doGet net key order).err = some .ErrNoAvailableService ↔
      ∀ a ∈ order, (net a).usable = false) ∧
    ((r.doGet net key order).err = none ∨
      (r.doGet net key order).err = some .ErrNoAvailableService) := by
  induction order generalizing r with
  | nil => simp [RaftClient.doGet]
  | cons a rest ih =>
    unfold RaftClient.doGet
    cases hn : net a with
    | transportErr => simpa [hn, GetReply.usable] using ih (r.recordFailure a)
    | readErr => simpa [hn, GetReply.usable] using ih r
    | unmarshalErr => simpa [hn, GetReply.usable] using ih r
    | object m => simp [hn, GetReply.usable]

/-- The first usable reply decides what `doGet` returns. -/
theorem RaftClient.doGet_first_usable (net : String → GetReply) (key : String)
    (pre : List String) (a : String) (post : List String) (m : JsonMap) (r : RaftClient)
    (hpre : ∀ b ∈ pre, (net b).usable = false) (ha : net a = .object m) :
    (r.doGet net key (pre ++ a :: post)).err = none ∧
    (r.doGet net key (pre ++ a :: post)).value = m.index key ∧
    (r.doGet net key (pre ++ a :: post)).contacted = pre ++ [a] := by
  induction pre generalizing r with
  | nil => simp [RaftClient.doGet, ha]
  | cons b rest ih =>
    have hb : (net b).usable = false := hpre b (List.mem_cons_self _ _)
    have ih2 := fun r0 => ih r0 (fun c hc => hpre c (List.mem_cons_of_mem _ hc))
    rw [List.cons_append]
    unfold RaftClient.doGet
    cases hn : net b with
    | transportErr => simpa using ih2 (r.recordFailure b)
    | readErr => simpa using ih2 r
    | unmarshalErr => simpa using ih2 r
    | object m0 => rw [hn] at hb; cases hb

/-- C7: `doGet` on an empty map returns `ErrNoAvailableService`; for any
visiting order it returns `ErrNoAvailableService` if and only if no visited
address yields a reply whose transport succeeded, whose body was read and
whose body decodes as a string-to-string object; otherwise the error is nil
and the value is the entry for the key in the object of the first such
address. -/
theorem RaftClient.doGet_no_available_service (net : String → GetReply) (key : String)
    (order : List String) (r : RaftClient) :
    (r.doGet net key []).err = some .ErrNoAvailableService ∧
    ((r.doGet net key order).err = some .ErrNoAvailableService ↔
      ∀ a ∈ order, (net a).usable = false) ∧
    ((r.doGet net key order).err ≠ some .ErrNoAvailableService →
      (r.doGet net key order).err = none) ∧
    (∀ (pre : List String) (a : String) (post : List String) (m : JsonMap),
      order = pre ++ a :: post → (∀ b ∈ pre, (net b).usable = false) → net a = .object m →
      (r.doGet net key order).err = none ∧ (r.doGet net key order).value = m.index key) := by
  refine ⟨rfl, (RaftClient.doGet_err_iff net key order r).1, ?_, ?_⟩
  · intro h
    rcases (RaftClient.doGet_err_iff net key order r).2 with h0 | h0
    · exact h0
    · exact absurd h0 h
  · intro pre a post m ho hpre ha
    subst ho
    have h := RaftClient.doGet_first_usable net key pre a post m r hpre ha
    exact ⟨h.1, h.2.1⟩

/-- Witness of C7: the unreachable `"n1"` is visited before the answering
`"n2"`. -/
theorem RaftClient.doGet_no_available_service_witness :
    (twoNodes.doGet n1Down "x" ["n1", "n2"]).err = none ∧
    (twoNodes.doGet n1Down "x" ["n1", "n2"]).value = JsonMap.index [("x", "v")] "x" :=
  (RaftClient.doGet_no_available_service n1Down "x" ["n1", "n2"] twoNodes).2.2.2
    ["n1"] "n2" [] [("x", "v")] rfl (by decide) (by decide)

/-! ## C6: `GET /key/k` on the client gateway -/

/-- The key is missing exactly when the path does not split into three parts
with a non-empty third part. -/
theorem getKey_eq_empty_iff (path : String) :
    getKey path = "" ↔
      ¬ ((stringsSplit path '/').length = 3 ∧ (stringsSplit path '/').getD 2 "" ≠ "") := by
  unfold getKey
  by_cases h : (stringsSplit path '/').length = 3
  · simp [h]
  · simp [h]

/-- C6 (counterexample): `GET /key/x` with the only backend unreachable has a
key in its path, `doGet` returns `ErrNoAvailableService`, and the response is
400 with an empty body, not 200 with the key mapped to the empty string. -/
theorem RaftClient.get_read_failure_counterexample :
    getKey sampleGet.Path = "x" ∧
    (oneNode.doGet unreachableWorld.get "x" unreachableWorld.order).err
      = some .ErrNoAvailableService ∧
    (oneNode.ServeHTTP unreachableWorld sampleGet).1 = some (writeHeader 400) ∧
    (oneNode.ServeHTTP unreachableWorld sampleGet).1 ≠ some (writeString "") := by
  decide

/-- C6 (amended): a `GET` whose path starts with `/key` is always answered;
the status is 400 if and only if the key is missing from the path or no
visited backend gives a usable reply (`doGet` returns `ErrNoAvailableService`);
when the key is present and some backend gives a usable reply, the response is
200 with the JSON encoding of the key and the value the first such backend
reports for it (the empty string when its object lacks the key), provided
`json.Marshal` succeeds. -/
theorem RaftClient.get_status (w : World) (r : RaftClient) (req : Request)
    (hm : req.Method = "GET") (hp : stringsHasPrefix req.Path "/key" = true) :
    ∃ resp, (r.ServeHTTP w req).1 = some resp ∧
      (resp.status = 400 ↔
        (¬ ((stringsSplit req.Path '/').length = 3 ∧
            (stringsSplit req.Path '/').getD 2 "" ≠ "") ∨
          ∀ a ∈ w.order, (w.get a).usable = false)) ∧
      (∀ (pre : List String) (a : String) (post : List String) (m : JsonMap) (b : String),
        getKey req.Path ≠ "" → w.order = pre ++ a :: post →
        (∀ c ∈ pre, (w.get c).usable = false) → w.get a = .object m →
        w.marshal [(getKey req.Path, m.index (getKey req.Path))] = some b →
        resp = writeString b) := by
  rw [← getKey_eq_empty_iff]
  unfold RaftClient.ServeHTTP
  simp only [hp, hm, if_true]
  by_cases hk : getKey req.Path = ""
  · refine ⟨writeHeader 400, by simp [hk], by simp [hk, writeHeader], ?_⟩
    intro pre a post m b hk2
    exact absurd hk hk2
  · have hiff := RaftClient.doGet_err_iff w.get (getKey req.Path) w.order r
    simp only [hk, if_false, false_or]
    cases he : (r.doGet w.get (getKey req.Path) w.order).err with
    | some e =>
      have hall : ∀ a ∈ w.order, (w.get a).usable = false := by
        rcases hiff.2 with h0 | h0
        · rw [he] at h0; cases h0
        · exact hiff.1.mp h0
      refine ⟨writeHeader 400, rfl, ⟨fun _ => hall, fun _ => rfl⟩, ?_⟩
      intro pre a post m b _ ho _ ha _
      have := hall a (by rw [ho]; simp)
      rw [ha] at this
      cases this
    | none =>
      have hnot : ¬ ∀ a ∈ w.order, (w.get a).usable = false := by
        intro hall
        have := hiff.1.mpr hall
        rw [he] at this
        cases this
      cases hmar : w.marshal [(getKey req.Path,
          (r.doGet w.get (getKey req.Path) w.order).value)] with
      | none =>
        refine ⟨writeHeader 500, rfl,
          ⟨fun h => by simp [writeHeader] at h, fun h => absurd h hnot⟩, ?_⟩
        intro pre a post m b _ ho hpre ha hb
        have hv := (RaftClient.doGet_first_usable w.get (getKey req.Path) pre a post m r
          hpre ha).2.1
        rw [← ho] at hv
        rw [hv, hb] at hmar
        cases hmar
      | some b0 =>
        refine ⟨writeString b0, rfl,
          ⟨fun h => by simp [writeString] at h, fun h => absurd h hnot⟩, ?_⟩
        intro pre a post m b _ ho hpre ha hb
        have hv := (RaftClient.doGet_first_usable w.get (getKey req.Path) pre a post m r
          hpre ha).2.1
        rw [← ho] at hv
        rw [hv, hb] at hmar
        cases hmar
        rfl

/-- Witness of C6 (amended): `GET /key/x` with one unreachable backend. -/
theorem RaftClient.get_status_witness :
    ∃ resp, (oneNode.ServeHTTP unreachableWorld sampleGet).1 = some resp ∧
      (resp.status = 400 ↔
        (¬ ((stringsSplit sampleGet.Path '/').length = 3 ∧
            (stringsSplit sampleGet.Path '/').getD 2 "" ≠ "") ∨
          ∀ a ∈ unreachableWorld.order, (unreachableWorld.get a).usable = false)) ∧
      (∀ (pre : List String) (a : String) (post : List String) (m : JsonMap) (b : String),
        getKey sampleGet.Path ≠ "" → unreachableWorld.order = pre ++ a :: post →
        (∀ c ∈ pre, (unreachableWorld.get c).usable = false) →
        unreachableWorld.get a = .object m →
        unreachableWorld.marshal [(getKey sampleGet.Path, m.index (getKey sampleGet.Path))]
          = some b →
        resp = writeString b) :=
  RaftClient.get_status unreachableWorld oneNode sampleGet (by decide) (by decide)

/-! ## C8: joining twice -/

/-- C8: a valid `POST /service_join` with `serviceAddr = a` is answered 200;
handling it twice gives the same registry as handling it once; afterwards the
count of `a` is 0 whatever it was before and every other entry is unchanged.
A body without the field `serviceAddr` is answered 400 and the registry is
unchanged. -/
theorem RaftClient.service_join_idempotent (w1 w2 : World) (r : RaftClient) (req : Request)
    (m : JsonMap) (hm : req.Method = "POST")
    (hk : stringsHasPrefix req.Path "/key" = false)
    (hp : stringsHasPrefix req.Path "/service_join" = true) (hb : req.Body = some m) :
    (∀ a, m.get? "serviceAddr" = some a →
      (r.ServeHTTP w1 req).1 = some (writeHeader 200) ∧
      ((r.ServeHTTP w1 req).2.ServeHTTP w2 req).2 = (r.ServeHTTP w1 req).2 ∧
      (r.ServeHTTP w1 req).2.services a = some 0 ∧
      (∀ b, b ≠ a → (r.ServeHTTP w1 req).2.services b = r.services b)) ∧
    (m.get? "serviceAddr" = none → r.ServeHTTP w1 req = (some (writeHeader 400), r)) := by
  constructor
  · intro a ha
    have h1 : r.ServeHTTP w1 req =
        (some (writeHeader 200), { r with services := r.services.set a 0 }) := by
      unfold RaftClient.ServeHTTP RaftClient.handleServiceJoin
      simp [hk, hp, hm, hb, ha]
    have h2 : ({ r with services := r.services.set a 0 } : RaftClient).ServeHTTP w2 req =
        (some (writeHeader 200),
          { r with services := (r.services.set a 0).set a 0 }) := by
      unfold RaftClient.ServeHTTP RaftClient.handleServiceJoin
      simp [hk, hp, hm, hb, ha]
    have h3 : (r.services.set a 0).set a 0 = r.services.set a 0 := by
      funext b
      by_cases e : b = a <;> simp [Services.set, e]
    rw [h1]
    refine ⟨rfl, ?_, ?_, ?_⟩
    · simp only [h2, h3]
    · simp [Services.set]
    · intro b hne
      simp [Services.set, hne]
  · intro hnone
    unfold RaftClient.ServeHTTP RaftClient.handleServiceJoin
    simp [hk, hp, hm, hb, hnone]

/-- Witness of C8: `"n1"` joins a registry in which it already has six
recorded failures. -/
theorem RaftClient.service_join_idempotent_witness :
    ((fun c => RaftClient.recordFailure c "n1")^[6] oneNode).services "n1" = some 6 ∧
    (((fun c => RaftClient.recordFailure c "n1")^[6] oneNode).ServeHTTP unreachableWorld
      joinN1).2.services "n1" = some 0 :=
  ⟨by decide,
   ((RaftClient.service_join_idempotent unreachableWorld unreachableWorld
      ((fun c => RaftClient.recordFailure c "n1")^[6] oneNode) joinN1
      [("serviceAddr", "n1")] (by decide) (by decide) (by decide) rfl).1 "n1"
      (by decide)).2.2.1⟩

/-! ## C9: `doPost` stops at the first responsive backend -/

/-- The loop of `doPost` up to the first responsive address. -/
theorem RaftClient.doPostLoop_first_responsive (net : String → PostReply) (pre : List String)
    (a : String) (post : List String) (r : RaftClient)
    (hpre : ∀ c ∈ pre, net c = .transportErr) (ha : net a = .responded) :
    (r.doPostLoop net (pre ++ a :: post)).err = none ∧
    (r.doPostLoop net (pre ++ a :: post)).contacted = pre ++ [a] ∧
    (r.doPostLoop net (pre ++ a :: post)).client = pre.foldl RaftClient.recordFailure r := by
  induction pre generalizing r with
  | nil => simp [RaftClient.doPostLoop, ha]
  | cons b rest ih =>
    have hb : net b = .transportErr := hpre b (List.mem_cons_self _ _)
    have ih2 := ih (r.recordFailure b) (fun c hc => hpre c (List.mem_cons_of_mem _ hc))
    rw [List.cons_append]
    unfold RaftClient.doPostLoop
    simpa [hb] using ih2

/-- The loop of `doPost` fails exactly when every address fails. -/
theorem RaftClient.doPostLoop_err_iff (net : String → PostReply) (order : List String)
    (r : RaftClient) :
    ((r.doPostLoop net order).err = some .ErrNoAvailableService ↔
      ∀ a ∈ order, net a = .transportErr) := by
  induction order generalizing r with
  | nil => simp [RaftClient.doPostLoop]
  | cons a rest ih =>
    unfold RaftClient.doPostLoop
    cases hn : net a with
    | transportErr => simpa [hn] using ih (r.recordFailure a)
    | responded => simp [hn]

/-- The client `doGet` leaves behind when a prefix of unreachable addresses is
followed by a usable reply. -/
theorem RaftClient.doGet_client (net : String → GetReply) (key : String) (pre : List String)
    (a : String) (post : List String) (m : JsonMap) (r : RaftClient)
    (hpre : ∀ c ∈ pre, net c = .transportErr) (ha : net a = .object m) :
    (r.doGet net key (pre ++ a :: post)).client = pre.foldl RaftClient.recordFailure r := by
  induction pre generalizing r with
  | nil => simp [RaftClient.doGet, ha]
  | cons b rest ih =>
    have hb : net b = .transportErr := hpre b (List.mem_cons_self _ _)
    have ih2 := ih (r.recordFailure b) (fun c hc => hpre c (List.mem_cons_of_mem _ hc))
    rw [List.cons_append]
    unfold RaftClient.doGet
    simpa [hb] using ih2

/-- C9: once `json.Marshal` has succeeded, `doPost` sends the `POST` in
visiting order up to the first address whose transport succeeds and returns
nil: the addresses contacted are exactly those up to that one; every address
after it keeps its failure count; every address before it has had the failure
branch applied once, the same as `doGet` does (count incremented, or entry
removed when the count already exceeds 5); and `ErrNoAvailableService` is
returned exactly when every address failed. -/
theorem RaftClient.doPost_first_responsive (marshal : JsonMap → Option String)
    (net : String → PostReply) (m : JsonMap) (order : List String) (r : RaftClient)
    (body : String) (hmar : marshal m = some body) :
    (∀ (pre : List String) (a : String) (post : List String),
      order = pre ++ a :: post → order.Nodup →
      (∀ c ∈ pre, net c = .transportErr) → net a = .responded →
      (r.doPost marshal net m order).err = none ∧
      (r.doPost marshal net m order).contacted = pre ++ [a] ∧
      (∀ c ∈ post, c ∉ (r.doPost marshal net m order).contacted ∧
        (r.doPost marshal net m order).client.services c = r.services c) ∧
      (r.doPost marshal net m order).client.services a = r.services a ∧
      (∀ c ∈ pre, (r.doPost marshal net m order).client.services c =
        if r.services.index c > maxFailOnRequestOnService then none
        else some (r.services.index c + 1)) ∧
      (∀ (gnet : String → GetReply) (key : String) (obj : JsonMap),
        (∀ c ∈ pre, gnet c = .transportErr) → gnet a = .object obj →
        (r.doGet gnet key order).client = (r.doPost marshal net m order).client)) ∧
    ((r.doPost marshal net m order).err = some .ErrNoAvailableService ↔
      ∀ a ∈ order, net a = .transportErr) := by
  have hd : r.doPost marshal net m order = r.doPostLoop net order := by
    unfold RaftClient.doPost
    rw [hmar]
  rw [hd]
  refine ⟨?_, RaftClient.doPostLoop_err_iff net order r⟩
  intro pre a post ho hnd hpre ha
  subst ho
  obtain ⟨h1, h2, h3⟩ := RaftClient.doPostLoop_first_responsive net pre a post r hpre ha
  have hnd2 := List.nodup_append.mp hnd
  have hdisj : ∀ c, c ∈ pre → c ∈ a :: post → False := fun c hc1 hc2 => hnd2.2.2 hc1 hc2
  have hapost := List.nodup_cons.mp hnd2.2.1
  refine ⟨h1, h2, ?_, ?_, ?_, ?_⟩
  · intro c hc
    have hcpre : c ∉ pre := fun h => hdisj c h (List.mem_cons_of_mem _ hc)
    have hca : c ≠ a := fun e => hapost.1 (e ▸ hc)
    refine ⟨?_, ?_⟩
    · rw [h2]
      simp [hcpre, hca]
    · rw [h3]
      exact RaftClient.foldl_recordFailure_other pre r c hcpre
  · rw [h3]
    exact RaftClient.foldl_recordFailure_other pre r a
      (fun h => hdisj a h (List.mem_cons_self _ _))
  · intro c hc
    rw [h3, RaftClient.foldl_recordFailure_mem pre r c hnd2.1 hc, RaftClient.recordFailure_same]
    rfl
  · intro gnet key obj hg hga
    rw [h3]
    exact RaftClient.doGet_client gnet key pre a post obj r hg hga

/-- Witness of C9: `"n1"` fails, `"n2"` responds, `"n3"` is not contacted. -/
theorem RaftClient.doPost_first_responsive_witness :
    (threeNodes.doPost marshalStub n1DownPost [("a", "1")] ["n1", "n2", "n3"]).err = none ∧
    (threeNodes.doPost marshalStub n1DownPost [("a", "1")] ["n1", "n2", "n3"]).contacted
      = ["n1"] ++ ["n2"] :=
  ⟨((RaftClient.doPost_first_responsive marshalStub n1DownPost [("a", "1")]
      ["n1", "n2", "n3"] threeNodes "" rfl).1 ["n1"] "n2" ["n3"] rfl (by decide)
      (by decide) (by decide)).1,
   ((RaftClient.doPost_first_responsive marshalStub n1DownPost [("a", "1")]
      ["n1", "n2", "n3"] threeNodes "" rfl).1 ["n1"] "n2" ["n3"] rfl (by decide)
      (by decide) (by decide)).2.1⟩

/-! ## C10: bounds of the failure counts -/

theorem CountsBounded.set_zero (r : RaftClient) (addr : String) (h : CountsBounded r) :
    CountsBounded { r with services := r.services.set addr 0 } := by
  intro a c hc
  by_cases e : a = addr
  · simp [Services.set, e] at hc
    subst hc
    simp [maxFailOnRequestOnService]
  · simp [Services.set, e] at hc
    exact h a c hc

theorem CountsBounded.removeService (r : RaftClient) (addr : String) (h : CountsBounded r) :
    CountsBounded (r.removeService addr) := by
  intro a c hc
  by_cases e : a = addr
  · simp [RaftClient.removeService, Services.delete, e] at hc
  · simp [RaftClient.removeService, Services.delete, e] at hc
    exact h a c hc

theorem CountsBounded.recordFailure (r : RaftClient) (addr : String) (h : CountsBounded r) :
    CountsBounded (r.recordFailure addr) := by
  intro a c hc
  by_cases e : a = addr
  · subst e
    rw [RaftClient.recordFailure_same] at hc
    split at hc
    · cases hc
    · rename_i hle
      have hlo : 0 ≤ r.services.index a := by
        unfold Services.index
        cases hs : r.services a with
        | none => simp
        | some c0 => simpa using (h a c0 hs).1
      simp only [Option.some.injEq] at hc
      subst hc
      simp only [maxFailOnRequestOnService]
      omega
  · rw [RaftClient.recordFailure_other r addr a e] at hc
    exact h a c hc

theorem CountsBounded.doGet (net : String → GetReply) (key : String) (order : List String)
    (r : RaftClient) (h : CountsBounded r) : CountsBounded (r.doGet net key order).client := by
  induction order generalizing r with
  | nil => exact h
  | cons a rest ih =>
    unfold RaftClient.doGet
    cases hn : net a with
    | transportErr => exact ih _ (CountsBounded.recordFailure r a h)
    | readErr => exact ih _ h
    | unmarshalErr => exact ih _ h
    | object m => exact h

theorem CountsBounded.doPostLoop (net : String → PostReply) (order : List String)
    (r : RaftClient) (h : CountsBounded r) : CountsBounded (r.doPostLoop net order).client := by
  induction order generalizing r with
  | nil => exact h
  | cons a rest ih =>
    unfold RaftClient.doPostLoop
    cases hn : net a with
    | transportErr => exact ih _ (CountsBounded.recordFailure r a h)
    | responded => exact h

theorem CountsBounded.doPost (marshal : JsonMap → Option String) (net : String → PostReply)
    (m : JsonMap) (order : List String) (r : RaftClient) (h : CountsBounded r) :
    CountsBounded (r.doPost marshal net m order).client := by
  unfold RaftClient.doPost
  cases marshal m with
  | none => exact h
  | some b => exact CountsBounded.doPostLoop net order r h

theorem CountsBounded.doDelete (net : String → DeleteReply) (order : List String)
    (r : RaftClient) (h : CountsBounded r) : CountsBounded (r.doDelete net order).client := by
  induction order generalizing r with
  | nil => exact h
  | cons a rest ih =>
    unfold RaftClient.doDelete
    cases hn : net a with
    | parseErr => exact ih _ h
    | transportErr => exact CountsBounded.recordFailure r a h
    | responded => exact ih _ h

theorem CountsBounded.handleServiceJoin (r : RaftClient) (req : Request)
    (h : CountsBounded r) : CountsBounded (r.handleServiceJoin req).2 := by
  unfold RaftClient.handleServiceJoin
  split
  · split
    · exact h
    · split
      · exact h
      · exact CountsBounded.set_zero r _ h
  · exact h

theorem CountsBounded.ServeHTTP (w : World) (r : RaftClient) (req : Request)
    (h : CountsBounded r) : CountsBounded (r.ServeHTTP w req).2 := by
  have hg := CountsBounded.doGet w.get (getKey req.Path) w.order r h
  have hd := CountsBounded.doDelete w.del w.order r h
  have hj := CountsBounded.handleServiceJoin r req h
  unfold RaftClient.ServeHTTP
  by_cases hp : stringsHasPrefix req.Path "/key" = true
  · rw [if_pos hp]
    by_cases hG : req.Method = "GET"
    · rw [if_pos hG]
      dsimp only
      by_cases hk : getKey req.Path = ""
      · rw [if_pos hk]; exact h
      · rw [if_neg hk]
        split
        · exact hg
        · split <;> exact hg
    · rw [if_neg hG]
      by_cases hP : req.Method = "POST"
      · rw [if_pos hP]
        split
        · exact h
        · rename_i m _
          have hpost := CountsBounded.doPost w.marshal w.post m w.order r h
          dsimp only
          split <;> exact hpost
      · rw [if_neg hP]
        by_cases hD : req.Method = "DELETE"
        · rw [if_pos hD]
          dsimp only
          by_cases hk : getKey req.Path = ""
          · rw [if_pos hk]; exact h
          · rw [if_neg hk]
            split <;> exact hd
        · rw [if_neg hD]; exact h
  · rw [if_neg hp]
    by_cases hs : stringsHasPrefix req.Path "/service_join" = true
    · rw [if_pos hs]; exact hj
    · rw [if_neg hs]; exact h

/-- The bound holds in every reachable state. -/
theorem Reachable.countsBounded (r : RaftClient) (h : Reachable r) : CountsBounded r := by
  induction h with
  | init addr => intro a c hc; simp [NewRaftClient] at hc
  | serve w r req _ _ ih => exact CountsBounded.ServeHTTP w r req ih
  | addService r addr _ ih => exact CountsBounded.set_zero r addr ih
  | removeService r addr _ ih => exact CountsBounded.removeService r addr ih
  | doGet net key order r _ _ ih => exact CountsBounded.doGet net key order r ih
  | doPost marshal net m order r _ _ ih => exact CountsBounded.doPost marshal net m order r ih
  | doDelete net order r _ _ ih => exact CountsBounded.doDelete net order r ih

/-- C10: in every client state reachable from `NewRaftClient` through service
joins, `addService`, `removeService` and runs of `doGet`, `doPost` and
`doDelete` with arbitrary transport outcomes, every stored failure count `c`
satisfies `0 ≤ c ≤ 6`. -/
theorem RaftClient.failure_count_bounds (r : RaftClient) (h : Reachable r) (a : String)
    (c : Int) (hc : r.services a = some c) :
    0 ≤ c ∧ c ≤ maxFailOnRequestOnService + 1 := by
  have hb : CountsBounded r := Reachable.countsBounded r h
  exact hb a c hc

/-- A map with the single key `A` is visited in the order `[A]`. -/
theorem RangeOrder.single (s : Services) (A : String) (h : ∀ a, (s a).isSome ↔ a = A) :
    RangeOrder s [A] :=
  ⟨List.nodup_singleton A, fun a => by rw [List.mem_singleton]; exact (h a).symm⟩

/-- The keys of a client whose only key is `A`, after one more failure on `A`
with a count of at most 5. -/
theorem RaftClient.recordFailure_keys (r : RaftClient) (A : String) (c : Int)
    (h : ∀ a, (r.services a).isSome ↔ a = A) (hc : r.services A = some c) (hle : c ≤ 5) :
    ∀ a, ((r.recordFailure A).services a).isSome ↔ a = A := by
  intro a
  by_cases e : a = A
  · subst e
    simp [RaftClient.recordFailure_count r a c hc hle]
  · rw [RaftClient.recordFailure_other r A a e]
    exact h a

theorem failOnce_eq (A : String) (r : RaftClient) : failOnce A r = r.recordFailure A := by
  simp [failOnce, RaftClient.doGet]

/-- A failing run of `doGet` keeps a reachable single-key client reachable and
adds one to a count of at most 5. -/
theorem Reachable.after_failOnce (r : RaftClient) (A : String) (c : Int) (hr : Reachable r)
    (h : ∀ a, (r.services a).isSome ↔ a = A) (hc : r.services A = some c) (hle : c ≤ 5) :
    Reachable (failOnce A r) ∧ (∀ a, ((failOnce A r).services a).isSome ↔ a = A) ∧
      (failOnce A r).services A = some (c + 1) := by
  refine ⟨Reachable.doGet _ _ _ r hr (RangeOrder.single r.services A h), ?_, ?_⟩
  · rw [failOnce_eq]
    exact RaftClient.recordFailure_keys r A c h hc hle
  · rw [failOnce_eq]
    exact RaftClient.recordFailure_count r A c hc hle

/-- The state after `"n1"` joined and six runs of `doGet` failed on it is
reachable and stores the count 6. -/
theorem Reachable.six_failures :
    Reachable ((failOnce "n1")^[6] oneNode) ∧
    ((failOnce "n1")^[6] oneNode).services "n1" = some 6 := by
  have h0 : Reachable oneNode := Reachable.addService _ "n1" (Reachable.init ":50000")
  have k0 : ∀ a, (oneNode.services a).isSome ↔ a = "n1" := by
    intro a
    by_cases e : a = "n1" <;>
      simp [oneNode, NewRaftClient, RaftClient.addService, Services.set, e]
  have c0 : oneNode.services "n1" = some 0 := by decide
  obtain ⟨h1, k1, c1⟩ := Reachable.after_failOnce _ "n1" _ h0 k0 c0 (by decide)
  obtain ⟨h2, k2, c2⟩ := Reachable.after_failOnce _ "n1" _ h1 k1 c1 (by decide)
  obtain ⟨h3, k3, c3⟩ := Reachable.after_failOnce _ "n1" _ h2 k2 c2 (by decide)
  obtain ⟨h4, k4, c4⟩ := Reachable.after_failOnce _ "n1" _ h3 k3 c3 (by decide)
  obtain ⟨h5, k5, c5⟩ := Reachable.after_failOnce _ "n1" _ h4 k4 c4 (by decide)
  obtain ⟨h6, _, c6⟩ := Reachable.after_failOnce _ "n1" _ h5 k5 c5 (by decide)
  exact ⟨h6, c6⟩

/-- Witness of C10: the bound 6 is attained in a reachable state. -/
theorem RaftClient.failure_count_bounds_witness :
    ((failOnce "n1")^[6] oneNode).services "n1" = some 6 ∧
    (0 : Int) ≤ 6 ∧ (6 : Int) ≤ maxFailOnRequestOnService + 1 :=
  ⟨Reachable.six_failures.2,
   RaftClient.failure_count_bounds ((failOnce "n1")^[6] oneNode) Reachable.six_failures.1
     "n1" 6 Reachable.six_failures.2⟩

end RaftDemo
